import Mathlib

/-!
Shallow embedding of the pileup/mpileup aggregation layer of cellsnp-lite
(`src/mplp.h`) and of its SNP-list loader (`src/snp.c`, `src/snp.h`).

C machine values are modelled as follows: `size_t` counters as `Nat`,
`int8_t` indices as `Int` (the code stores small signed values, negative
meaning "not valid"), `double` as `Real`, C strings as `String`.  The
khash maps keyed by sample-group / UMI-group names are modelled as
insertion-ordered association lists, an iterator being identified by the
key it designates.  A `NULL` pointer field is an `Option.none`.
-/

namespace CellsnpLite

/-- One UMI unit (`csp_umi_unit_t`): a base and a qual, both `int8_t`. -/
structure csp_umi_unit where
  base : Int
  qual : Int
deriving DecidableEq

/-- Per-cell/sample pileup state for one query position (`csp_plp_t`).
`bc` counts reads per base (ACGTN order), `tc/ad/dp/oth` are the summary
counters, `qu` the per-base qual lists, `qmat` the 5x4 qual matrix,
`gl`/`ngl` the genotype log-likelihood array and its valid length, and
`hug` the (possibly `NULL`) UMI-group hash, keys being the UMI names. -/
structure csp_plp where
  bc : Fin 5 → Nat
  tc : Nat
  ad : Nat
  dp : Nat
  oth : Nat
  qu : Fin 5 → List Int
  qmat : Fin 5 → Fin 4 → Real
  gl : Fin 5 → Real
  ngl : Nat
  hug : Option (List (String × List csp_umi_unit))

/-- `csp_plp_reset`: zero the counters, empty the qual lists, zero the
qual matrix, set `ngl = 0` and clear the UMI-group hash when present.
The `gl` array itself is not touched by the C code. -/
def csp_plp_reset (p : csp_plp) : csp_plp :=
  { p with
    bc := fun _ => 0
    tc := 0
    ad := 0
    dp := 0
    oth := 0
    qu := fun _ => []
    qmat := fun _ _ => 0
    ngl := 0
    hug := p.hug.map (fun _ => []) }

/-- Aggregated mpileup state over all sample groups for one query
position (`csp_mplp_t`).  `hsg` maps sample-group names to their
per-sample state (`NULL` value = not yet allocated), `hsg_iter` is the
iterator array in sample-group order (an iterator modelled by the key it
designates), `nsg` its size, `pu`/`pl`/`su` the three object pools and
`qvec` the container for `get_qual_vector` results. -/
structure csp_mplp where
  ref_idx : Int
  alt_idx : Int
  inf_rid : Int
  inf_aid : Int
  bc : Fin 5 → Nat
  tc : Nat
  ad : Nat
  dp : Nat
  oth : Nat
  nr_ad : Nat
  nr_dp : Nat
  nr_oth : Nat
  hsg : Option (List (String × Option csp_plp))
  hsg_iter : List String
  nsg : Nat
  pu : Option (List csp_umi_unit)
  pl : Option (List (List csp_umi_unit))
  su : Option (List String)
  qvec : Fin 4 → Real

/-- `csp_mplp_init`: `calloc` zero-initialises every field. -/
def csp_mplp_init : csp_mplp :=
  { ref_idx := 0, alt_idx := 0, inf_rid := 0, inf_aid := 0
    bc := fun _ => 0, tc := 0, ad := 0, dp := 0, oth := 0
    nr_ad := 0, nr_dp := 0, nr_oth := 0
    hsg := none, hsg_iter := [], nsg := 0
    pu := none, pl := none, su := none
    qvec := fun _ => 0 }

/-- `csp_mplp_reset`: zero the site-level counters, reset every
per-sample state in `hsg` (keys kept, values reset via `csp_plp_reset`),
reset the three pools and zero `qvec`.  The allele indices, `hsg_iter`
and `nsg` are not touched by the C code. -/
def csp_mplp_reset (m : csp_mplp) : csp_mplp :=
  { m with
    bc := fun _ => 0
    tc := 0
    ad := 0
    dp := 0
    oth := 0
    nr_ad := 0
    nr_dp := 0
    nr_oth := 0
    hsg := m.hsg.map (fun l => l.map (fun kv => (kv.1, kv.2.map csp_plp_reset)))
    pu := m.pu.map (fun _ => [])
    pl := m.pl.map (fun _ => [])
    su := m.su.map (fun _ => [])
    qvec := fun _ => 0 }

/-- `csp_infer_allele` loop body: update the running top-two
`(m1, m2, k1, k2)` with base `i`; replacements only on strict `>`. -/
def inferStep (bc : Nat → Nat) (i : Nat) (s : Nat × Nat × Nat × Nat) :
    Nat × Nat × Nat × Nat :=
  if bc i > s.1 then (bc i, s.1, i, s.2.2.1)
  else if bc i > s.2.1 then (s.1, bc i, s.2.2.1, i)
  else s

/-- `csp_infer_allele`: pick the two highest counts among `bc 0 .. bc 4`,
seeded on bases 0 and 1, scanning bases 2, 3, 4; returns
`(ref_idx, alt_idx)`. -/
def csp_infer_allele (bc : Nat → Nat) : Nat × Nat :=
  let s0 : Nat × Nat × Nat × Nat :=
    if bc 0 < bc 1 then (bc 1, bc 0, 1, 0) else (bc 0, bc 1, 0, 1)
  let s4 := inferStep bc 4 (inferStep bc 3 (inferStep bc 2 s0))
  (s4.2.2.1, s4.2.2.2)

/-- The `other_idx` buffer filled by `qual_matrix_to_geno`: the bases
`i = 0..4` with `i != ref_idx` and `i != alt_idx`, in scan order.  Its
length is the final value of the C counter `noth`. -/
def other_idx (ref_idx alt_idx : Int) : List Int :=
  (((List.range 5).map (fun i => (i : Int)))).filter
    (fun i => i ≠ ref_idx ∧ i ≠ alt_idx)

/-- The keys of a sample-group hash (the khash key set, in insertion
order). -/
def sgKeys (h : List (String × Option csp_plp)) : List String :=
  h.map Prod.fst

/-- One `csp_map_sg_put` call: khash `kh_put` returns `r = 0` when the
key is already present, which `csp_mplp_set_sg` treats as failure;
otherwise the key is inserted with a `NULL` value. -/
def sgPut (h : List (String × Option csp_plp)) (name : String) :
    Option (List (String × Option csp_plp)) :=
  if ((h.find? (fun kv => kv.1 == name)).isSome) then none
  else some (h ++ [(name, none)])

/-- The first loop of `csp_mplp_set_sg`: push every name, aborting on
the first repeated key. -/
def sgPutLoop (h : List (String × Option csp_plp)) :
    List String → Option (List (String × Option csp_plp))
  | [] => some h
  | x :: xs =>
    match sgPut h x with
    | none => none
    | some h' => sgPutLoop h' xs

/-- `csp_mplp_set_sg`: fails on an empty name list (`0 == n`), allocates
the hash/iterator array when still `NULL`, pushes every name (failing on
a repeated key), then records the iterator of each name in `hsg_iter`
and sets `nsg`.  The iterator array keeps any entries beyond the first
`n` from a previous call (the C array is only overwritten in `0..n-1`).
-/
def csp_mplp_set_sg (p : csp_mplp) (s : List String) : Option csp_mplp :=
  if s.length = 0 then none
  else
    match sgPutLoop (p.hsg.getD []) s with
    | none => none
    | some h' =>
      if s.all (fun x => ((h'.find? (fun kv => kv.1 == x)).isSome)) then
        some { p with
               hsg := some h'
               hsg_iter := s ++ p.hsg_iter.drop s.length
               nsg := s.length }
      else none

/-- `csp_map_sg_val(mplp->hsg, mplp->hsg_iter[i])`: dereference the
`i`-th iterator (0-based, as in the C array) and fetch the per-sample
state it designates.  `none` models an out-of-bounds iterator access, a
missing key or a `NULL` value pointer. -/
def csp_map_sg_val_at (m : csp_mplp) (i : Nat) : Option csp_plp :=
  match m.hsg_iter.get? i with
  | none => none
  | some k =>
    match m.hsg with
    | none => none
    | some h =>
      match h.find? (fun kv => kv.1 == k) with
      | none => none
      | some kv => kv.2

/-- One record of a sparse-matrix output stream: a final-format line
`site_index \t sample_index \t value`, a temporary-format line
`sample_index \t value`, or the blank separator line. -/
inductive MtxLine where
  | full (site samp v : Nat)
  | brief (samp v : Nat)
  | blank
deriving DecidableEq

/-- Loop body shared by `csp_mplp_str_mtx` (final format): for each
1-based sample index `i` in the list, emit one `full` line per metric
whose counter is non-zero, reading the per-sample state through
`hsg_iter[i]` exactly as the C loop does. -/
def strMtxGo (m : csp_mplp) (idx : Nat) :
    List Nat → Option (List MtxLine × List MtxLine × List MtxLine)
  | [] => some ([], [], [])
  | i :: rest =>
    match csp_map_sg_val_at m i with
    | none => none
    | some plp =>
      match strMtxGo m idx rest with
      | none => none
      | some (a, d, o) =>
        some ((if plp.ad ≠ 0 then [MtxLine.full idx i plp.ad] else []) ++ a,
              (if plp.dp ≠ 0 then [MtxLine.full idx i plp.dp] else []) ++ d,
              (if plp.oth ≠ 0 then [MtxLine.full idx i plp.oth] else []) ++ o)

/-- `csp_mplp_str_mtx`: iterate `i = 1 .. nsg` and emit the AD/DP/OTH
final-format lines; the C body reads `hsg_iter[i]` (not `i - 1`). -/
def csp_mplp_str_mtx (m : csp_mplp) (idx : Nat) :
    Option (List MtxLine × List MtxLine × List MtxLine) :=
  strMtxGo m idx (List.range' 1 m.nsg)

/-- Loop body of `csp_mplp_str_mtx_tmp` (temporary format, no site
index), also reading `hsg_iter[i]`. -/
def strMtxTmpGo (m : csp_mplp) :
    List Nat → Option (List MtxLine × List MtxLine × List MtxLine)
  | [] => some ([], [], [])
  | i :: rest =>
    match csp_map_sg_val_at m i with
    | none => none
    | some plp =>
      match strMtxTmpGo m rest with
      | none => none
      | some (a, d, o) =>
        some ((if plp.ad ≠ 0 then [MtxLine.brief i plp.ad] else []) ++ a,
              (if plp.dp ≠ 0 then [MtxLine.brief i plp.dp] else []) ++ d,
              (if plp.oth ≠ 0 then [MtxLine.brief i plp.oth] else []) ++ o)

/-- `csp_mplp_str_mtx_tmp`: temporary-format lines for `i = 1 .. nsg`
followed by one blank line per metric block. -/
def csp_mplp_str_mtx_tmp (m : csp_mplp) :
    Option (List MtxLine × List MtxLine × List MtxLine) :=
  match strMtxTmpGo m (List.range' 1 m.nsg) with
  | none => none
  | some (a, d, o) =>
    some (a ++ [MtxLine.blank], d ++ [MtxLine.blank], o ++ [MtxLine.blank])

/-- Loop body of `csp_mplp_to_mtx`: the jfile variant reads
`hsg_iter[i - 1]` and chooses the line format from the stream's
`is_tmp` flag. -/
def toMtxGo (m : csp_mplp) (ad_tmp dp_tmp oth_tmp : Bool) (idx : Nat) :
    List Nat → Option (List MtxLine × List MtxLine × List MtxLine)
  | [] => some ([], [], [])
  | i :: rest =>
    match csp_map_sg_val_at m (i - 1) with
    | none => none
    | some plp =>
      match toMtxGo m ad_tmp dp_tmp oth_tmp idx rest with
      | none => none
      | some (a, d, o) =>
        some ((if plp.ad ≠ 0 then
                 [if ad_tmp then MtxLine.brief i plp.ad
                  else MtxLine.full idx i plp.ad] else []) ++ a,
              (if plp.dp ≠ 0 then
                 [if dp_tmp then MtxLine.brief i plp.dp
                  else MtxLine.full idx i plp.dp] else []) ++ d,
              (if plp.oth ≠ 0 then
                 [if oth_tmp then MtxLine.brief i plp.oth
                  else MtxLine.full idx i plp.oth] else []) ++ o)

/-- `csp_mplp_to_mtx`: iterate `i = 1 .. nsg` reading `hsg_iter[i - 1]`;
append the blank separator to each stream whose `is_tmp` flag is set. -/
def csp_mplp_to_mtx (m : csp_mplp) (ad_tmp dp_tmp oth_tmp : Bool)
    (idx : Nat) : Option (List MtxLine × List MtxLine × List MtxLine) :=
  match toMtxGo m ad_tmp dp_tmp oth_tmp idx (List.range' 1 m.nsg) with
  | none => none
  | some (a, d, o) =>
    some (a ++ (if ad_tmp then [MtxLine.blank] else []),
          d ++ (if dp_tmp then [MtxLine.blank] else []),
          o ++ (if oth_tmp then [MtxLine.blank] else []))

/-- `get_qual_vector`: clamp the quality into `[min_bq, cap_bq]`, turn
it into the Phred error probability `p = 0.1^(bq/10)` and return the
4-entry log vector `[log(1-p), log(3/4 - 2p/3), log(1/2 - p/3), log p]`.
(The C function also returns status 0, unconditionally.) -/
noncomputable def get_qual_vector (qual cap_bq min_bq : Real) : Fin 4 → Real :=
  let bq := max (min cap_bq qual) min_bq
  let p := (0.1 : Real) ^ (bq / 10)
  ![Real.log (1 - p), Real.log (0.75 - 2 / 3 * p),
    Real.log (0.5 - 1 / 3 * p), Real.log p]

/-- `qual_matrix_to_geno`: translate the qual matrix and base counts
into the genotype log-likelihood vector.  The base arrays are modelled
as functions of the (signed, possibly invalid) `int8_t` indices; the
`other` partition is the `other_idx` scan above.  Returns the `gl`
entries actually written and the value stored in `*n`. -/
noncomputable def qual_matrix_to_geno (qm : Int → Fin 4 → Real)
    (bc : Int → Nat) (ref_idx alt_idx : Int) (db : Bool) :
    List Real × Nat :=
  let others := other_idx ref_idx alt_idx
  let oth_qual := (others.map (fun i => qm i 3)).sum
    + Real.log (2 / 3) * (others.map (fun i => (bc i : Real))).sum
  let gl0 := oth_qual + qm ref_idx 0 + qm alt_idx 3
    + Real.log (1 / 3) * (bc alt_idx : Real)
  let gl1 := oth_qual + qm ref_idx 2 + qm alt_idx 2
  let gl2 := oth_qual + qm ref_idx 3 + qm alt_idx 0
    + Real.log (1 / 3) * (bc ref_idx : Real)
  if db then
    ([gl0, gl1, gl2,
      oth_qual + qm ref_idx 1 + Real.log (1 / 4) * (bc alt_idx : Real),
      oth_qual + qm alt_idx 1 + Real.log (1 / 4) * (bc ref_idx : Real)], 5)
  else ([gl0, gl1, gl2], 3)

/-- Modelled from the spec: `get_idx_of_max` comes from `jnumeric.h`,
which is not part of the sources here; per the spec the genotype call is
the "arg-max over the first 3 likelihoods (ties resolved by
first-encountered, i.e., lowest class index)".  Inner scan: running
maximum and its first index. -/
def idxOfMaxGo {α : Type} [LinearOrder α] (cur : α) (curIdx next : Nat) :
    List α → Nat
  | [] => curIdx
  | x :: rest =>
    if cur < x then idxOfMaxGo x next (next + 1) rest
    else idxOfMaxGo cur curIdx (next + 1) rest

/-- Modelled from the spec: first index of the maximum of a non-empty
list (0 on the empty list). -/
def get_idx_of_max {α : Type} [LinearOrder α] : List α → Nat
  | [] => 0
  | x :: rest => idxOfMaxGo x 0 1 rest

/-- Modelled from the spec: `join_arr_to_str` of `jnumeric.h` joins the
rendered entries with a separator; with the `"%.0f"` format a double is
rendered as its nearest integer, i.e. `round`. -/
def joinComma (l : List String) : String :=
  String.intercalate "," l

/-- `csp_plp_str_vcf`: the VCF sample field.  `tc <= 0` (a `size_t`, so
`tc = 0`) yields the fixed missing marker; otherwise the genotype string
is selected by arg-max over `gl[0..2]`, and the field is
`GT:AD:DP:OTH:PL:AD_all` with `PL[i] = round(gl[i] * (-10/ln 10))` for
`i < ngl` and `AD_all` the comma-joined 5-base counts. -/
noncomputable def csp_plp_str_vcf (p : csp_plp) : String :=
  if p.tc = 0 then ".:.:.:.:.:."
  else
    let m := get_idx_of_max [p.gl 0, p.gl 1, p.gl 2]
    let gt := ["0/0", "1/0", "1/1"].getD m ""
    let pl := ((List.finRange 5).take p.ngl).map
      (fun i => round (p.gl i * (-10 / Real.log 10)))
    gt ++ ":" ++ toString p.ad ++ ":" ++ toString p.dp ++ ":"
       ++ toString p.oth ++ ":"
       ++ joinComma (pl.map (fun z => toString z)) ++ ":"
       ++ joinComma (((List.finRange 5).map (fun i => p.bc i)).map
            (fun n => toString n))

/-- One variant record as delivered by the external bcf reader to
`get_snplist_from_vcf`: `chr` is the result of the chromosome-name
lookup (`none` when the name cannot be resolved), `alleles` is
`d.allele[0 .. n_allele-1]`. -/
structure bcf_rec where
  chr : Option String
  pos : Int
  alleles : List String
deriving DecidableEq

/-- One SNP-list entry (`csp_snp_t`); `ref`/`alt` are `none` for the
`0` sentinel meaning "infer at pileup time". -/
structure csp_snp where
  chr : String
  pos : Int
  ref : Option Char
  alt : Option Char
deriving DecidableEq

/-- The per-record body of the `get_snplist_from_vcf` loop: `none`
models a `continue` (record skipped), `some` the snp pushed onto the
list.  A one-character allele is stored as that character, an absent
(empty) allele keeps the `0` sentinel, a longer allele or more than two
alleles skips the record. -/
def snp_from_rec (r : bcf_rec) : Option csp_snp :=
  match r.chr with
  | none => none
  | some c =>
    if r.alleles.length = 0 then some ⟨c, r.pos, none, none⟩
    else
      let a0 := r.alleles.getD 0 ""
      if a0.length > 1 then none
      else
        let ref := a0.toList.head?
        if r.alleles.length = 2 then
          let a1 := r.alleles.getD 1 ""
          if a1.length > 1 then none
          else some ⟨c, r.pos, ref, a1.toList.head?⟩
        else if r.alleles.length > 2 then none
        else some ⟨c, r.pos, ref, none⟩

/-- `get_snplist_from_vcf`, record loop only (file handling and I/O
failures are outside this model): starting from the existing list `pl`,
process the records in order, pushing the accepted ones and counting
them (`n` is used instead of the list size in case `pl` was not empty).
Returns the final list and the count of records actually added. -/
def get_snplist_from_vcf (recs : List bcf_rec) (pl : List csp_snp) :
    List csp_snp × Nat :=
  match recs with
  | [] => (pl, 0)
  | r :: rest =>
    match snp_from_rec r with
    | none => get_snplist_from_vcf rest pl
    | some s =>
      let (l, n) := get_snplist_from_vcf rest (pl ++ [s])
      (l, n + 1)

/-! Helper lemmas. -/

theorem csp_plp_reset_idem (p : csp_plp) :
    csp_plp_reset (csp_plp_reset p) = csp_plp_reset p := by
  rcases p with ⟨bc, tc, ad, dp, oth, qu, qmat, gl, ngl, hug⟩
  cases hug <;> rfl

theorem optPlpReset_idem (o : Option csp_plp) :
    (o.map csp_plp_reset).map csp_plp_reset = o.map csp_plp_reset := by
  cases o with
  | none => rfl
  | some p => simp [csp_plp_reset_idem]

theorem csp_mplp_reset_idem (m : csp_mplp) :
    csp_mplp_reset (csp_mplp_reset m) = csp_mplp_reset m := by
  rcases m with ⟨ri, ai, ir, ia, bc, tc, ad, dp, oth, na, nd, no,
    hsg, iter, nsg, pu, pl, su, qv⟩
  simp only [csp_mplp_reset]
  cases hsg with
  | none => cases pu <;> cases pl <;> cases su <;> rfl
  | some l =>
    cases pu <;> cases pl <;> cases su <;>
      simp [List.map_map, Function.comp_def, optPlpReset_idem] <;>
      (intro a b _; cases b <;> simp [csp_plp_reset_idem])

/-! Claim theorems. -/

/-- Test fixture for C1: a per-sample state with `ad = 5`, `dp = 5`,
`oth = 0`. -/
def plpC1 : csp_plp :=
  { bc := fun _ => 0, tc := 10, ad := 5, dp := 5, oth := 0
    qu := fun _ => [], qmat := fun _ _ => 0, gl := fun _ => 0
    ngl := 0, hug := none }

/-- Test fixture for C1: an aggregator with a single configured sample
group `"S0"`. -/
def mplpC1 : csp_mplp :=
  { csp_mplp_init with
    hsg := some [("S0", some plpC1)], hsg_iter := ["S0"], nsg := 1 }

/-- C1: the claim says `csp_mplp_str_mtx` and `csp_mplp_str_mtx_tmp`
emit, for each 1-based sample index `i`, the value of the `i`-th
configured sample group.  The code instead dereferences `hsg_iter[i]`
(0-based) for `i = 1 .. nsg`, so it skips the first group and reads one
slot past the end of the `nsg`-sized iterator array on the last
iteration (modelled as a failing lookup): on an aggregator with one
group whose `ad = dp = 5`, `oth = 0`, both formatters fail instead of
emitting the claimed lines, while the sibling `csp_mplp_to_mtx` — which
reads `hsg_iter[i - 1]` — emits exactly the lines the claim describes. -/
theorem claim_C1_mtx_formatters :
    csp_mplp_str_mtx mplpC1 3 = none ∧
    csp_mplp_str_mtx_tmp mplpC1 = none ∧
    csp_mplp_to_mtx mplpC1 false false false 3 =
      some ([MtxLine.full 3 1 5], [MtxLine.full 3 1 5], []) :=
  ⟨rfl, rfl, rfl⟩

/-- C8: `csp_plp_reset` and `csp_mplp_reset` are idempotent — a second
reset leaves exactly the state produced by the first. -/
theorem claim_C8_reset_idempotent :
    (∀ p : csp_plp, csp_plp_reset (csp_plp_reset p) = csp_plp_reset p) ∧
    (∀ m : csp_mplp, csp_mplp_reset (csp_mplp_reset m) = csp_mplp_reset m) :=
  ⟨csp_plp_reset_idem, csp_mplp_reset_idem⟩

/-- C10: `csp_mplp_reset` clears exactly the site-level counters, the
per-sample states (keys kept), the pools and `qvec`; the allele indices
`ref_idx`, `alt_idx`, `inf_rid`, `inf_aid`, the sample-group key set,
the iterator array `hsg_iter` and `nsg` are all preserved. -/
theorem claim_C10_reset_frame (m : csp_mplp) :
    (csp_mplp_reset m).ref_idx = m.ref_idx ∧
    (csp_mplp_reset m).alt_idx = m.alt_idx ∧
    (csp_mplp_reset m).inf_rid = m.inf_rid ∧
    (csp_mplp_reset m).inf_aid = m.inf_aid ∧
    (csp_mplp_reset m).hsg_iter = m.hsg_iter ∧
    (csp_mplp_reset m).nsg = m.nsg ∧
    (csp_mplp_reset m).hsg.map sgKeys = m.hsg.map sgKeys ∧
    (csp_mplp_reset m).bc = (fun _ => 0) ∧
    (csp_mplp_reset m).tc = 0 ∧
    (csp_mplp_reset m).ad = 0 ∧
    (csp_mplp_reset m).dp = 0 ∧
    (csp_mplp_reset m).oth = 0 ∧
    (csp_mplp_reset m).nr_ad = 0 ∧
    (csp_mplp_reset m).nr_dp = 0 ∧
    (csp_mplp_reset m).nr_oth = 0 ∧
    (csp_mplp_reset m).hsg
      = m.hsg.map (fun l => l.map (fun kv => (kv.1, kv.2.map csp_plp_reset))) ∧
    (csp_mplp_reset m).pu = m.pu.map (fun _ => []) ∧
    (csp_mplp_reset m).pl = m.pl.map (fun _ => []) ∧
    (csp_mplp_reset m).su = m.su.map (fun _ => []) ∧
    (csp_mplp_reset m).qvec = (fun _ => 0) := by
  refine ⟨rfl, rfl, rfl, rfl, rfl, rfl, ?_, rfl, rfl, rfl, rfl, rfl, rfl,
    rfl, rfl, rfl, rfl, rfl, rfl, rfl⟩
  cases h : m.hsg with
  | none => simp [csp_mplp_reset, h]
  | some l => simp [csp_mplp_reset, h, sgKeys]

/-- Invariant of the `csp_infer_allele` scan after the bases `< j` have
been examined: `(m1, m2, k1, k2)` holds the top-two counts, `m1`/`m2`
are the counts at `k1`/`k2`, and `k1` (resp. `k2` among indices other
than `k1`) is the least index attaining the maximum so far. -/
def InferInv (bc : Nat → Nat) (j : Nat) (s : Nat × Nat × Nat × Nat) : Prop :=
  s.1 = bc s.2.2.1 ∧ s.2.1 = bc s.2.2.2 ∧
  s.2.2.1 < j ∧ s.2.2.2 < j ∧ s.2.2.1 ≠ s.2.2.2 ∧ s.2.1 ≤ s.1 ∧
  (∀ i, i < j → bc i ≤ bc s.2.2.1) ∧
  (∀ i, i < j → bc i = bc s.2.2.1 → s.2.2.1 ≤ i) ∧
  (∀ i, i < j → i ≠ s.2.2.1 → bc i ≤ bc s.2.2.2) ∧
  (∀ i, i < j → i ≠ s.2.2.1 → bc i = bc s.2.2.2 → s.2.2.2 ≤ i)

theorem inferStep_inv (bc : Nat → Nat) (j : Nat) (s : Nat × Nat × Nat × Nat)
    (h : InferInv bc j s) : InferInv bc (j + 1) (inferStep bc j s) := by
  rcases s with ⟨m1, m2, k1, k2⟩
  simp only [InferInv] at h ⊢
  obtain ⟨hm1, hm2, hk1, hk2, hne, hle, hmax, htie1, hmax2, htie2⟩ := h
  simp only [inferStep]
  split_ifs with h1 h2 <;> dsimp only
  · refine ⟨rfl, hm1, by omega, by omega, by omega, by omega,
      ?_, ?_, ?_, ?_⟩ <;> intro i hi
    · rcases Nat.lt_succ_iff_lt_or_eq.mp hi with hij | hij
      · have := hmax i hij; omega
      · subst hij; omega
    · intro hbi
      rcases Nat.lt_succ_iff_lt_or_eq.mp hi with hij | hij
      · have := hmax i hij; omega
      · subst hij; omega
    · intro hik
      rcases Nat.lt_succ_iff_lt_or_eq.mp hi with hij | hij
      · by_cases hik1 : i = k1
        · subst hik1; omega
        · have := hmax2 i hij hik1; omega
      · subst hij; omega
    · intro hik hbi
      rcases Nat.lt_succ_iff_lt_or_eq.mp hi with hij | hij
      · exact htie1 i hij hbi
      · subst hij; omega
  · refine ⟨hm1, rfl, by omega, by omega, by omega, by omega,
      ?_, ?_, ?_, ?_⟩ <;> intro i hi
    · rcases Nat.lt_succ_iff_lt_or_eq.mp hi with hij | hij
      · exact hmax i hij
      · subst hij; omega
    · intro hbi
      rcases Nat.lt_succ_iff_lt_or_eq.mp hi with hij | hij
      · exact htie1 i hij hbi
      · subst hij; omega
    · intro hik
      rcases Nat.lt_succ_iff_lt_or_eq.mp hi with hij | hij
      · have := hmax2 i hij hik; omega
      · subst hij; omega
    · intro hik hbi
      rcases Nat.lt_succ_iff_lt_or_eq.mp hi with hij | hij
      · have := hmax2 i hij hik; omega
      · subst hij; omega
  · refine ⟨hm1, hm2, by omega, by omega, by omega, by omega,
      ?_, ?_, ?_, ?_⟩ <;> intro i hi
    · rcases Nat.lt_succ_iff_lt_or_eq.mp hi with hij | hij
      · exact hmax i hij
      · subst hij; omega
    · intro hbi
      rcases Nat.lt_succ_iff_lt_or_eq.mp hi with hij | hij
      · exact htie1 i hij hbi
      · subst hij; omega
    · intro hik
      rcases Nat.lt_succ_iff_lt_or_eq.mp hi with hij | hij
      · exact hmax2 i hij hik
      · subst hij; omega
    · intro hik hbi
      rcases Nat.lt_succ_iff_lt_or_eq.mp hi with hij | hij
      · exact htie2 i hij hik hbi
      · subst hij; omega

/-- C7: `csp_infer_allele` returns as `ref_idx` the least index of a
maximal count and as `alt_idx` the least index of a maximal count among
the remaining bases (strict comparisons, ties toward the lowest index);
in particular `[10,10,5,0,0]` yields `(0, 1)`. -/
theorem claim_C7_infer_allele :
    (∀ bc : Nat → Nat,
      (csp_infer_allele bc).1 < 5 ∧
      (csp_infer_allele bc).2 < 5 ∧
      (csp_infer_allele bc).1 ≠ (csp_infer_allele bc).2 ∧
      (∀ i, i < 5 → bc i ≤ bc (csp_infer_allele bc).1) ∧
      (∀ i, i < 5 → bc i = bc (csp_infer_allele bc).1 →
        (csp_infer_allele bc).1 ≤ i) ∧
      (∀ i, i < 5 → i ≠ (csp_infer_allele bc).1 →
        bc i ≤ bc (csp_infer_allele bc).2) ∧
      (∀ i, i < 5 → i ≠ (csp_infer_allele bc).1 →
        bc i = bc (csp_infer_allele bc).2 → (csp_infer_allele bc).2 ≤ i)) ∧
    csp_infer_allele (fun i => [10, 10, 5, 0, 0].getD i 0) = (0, 1) := by
  constructor
  · intro bc
    have base : InferInv bc 2
        (if bc 0 < bc 1 then (bc 1, bc 0, 1, 0) else (bc 0, bc 1, 0, 1)) := by
      simp only [InferInv]
      split_ifs with h <;> dsimp only <;>
        refine ⟨rfl, rfl, by omega, by omega, by omega, by omega,
          ?_, ?_, ?_, ?_⟩ <;>
        (intro i hi; interval_cases i <;> (intros; omega))
    have inv5 := inferStep_inv bc 4 _ (inferStep_inv bc 3 _
      (inferStep_inv bc 2 _ base))
    have heq : csp_infer_allele bc =
        ((inferStep bc 4 (inferStep bc 3 (inferStep bc 2
          (if bc 0 < bc 1 then (bc 1, bc 0, 1, 0)
           else (bc 0, bc 1, 0, 1))))).2.2.1,
         (inferStep bc 4 (inferStep bc 3 (inferStep bc 2
          (if bc 0 < bc 1 then (bc 1, bc 0, 1, 0)
           else (bc 0, bc 1, 0, 1))))).2.2.2) := rfl
    obtain ⟨_, _, hk1, hk2, hne, _, hmax, htie1, hmax2, htie2⟩ := inv5
    rw [heq]
    exact ⟨hk1, hk2, hne, hmax, htie1, hmax2, htie2⟩
  · rfl

/-- Witness for C7: instantiating the theorem at the base-count vector
`[10,10,5,0,0]` and index 2. -/
theorem claim_C7_infer_allele_witness :
    (2 : Nat) < 5 ∧
    (fun i => [10, 10, 5, 0, 0].getD i 0 : Nat → Nat) 2 ≤
      (fun i => [10, 10, 5, 0, 0].getD i 0 : Nat → Nat)
        (csp_infer_allele (fun i => [10, 10, 5, 0, 0].getD i 0)).1 :=
  ⟨by decide,
   (claim_C7_infer_allele.1 (fun i => [10, 10, 5, 0, 0].getD i 0)).2.2.2.1
     2 (by decide)⟩

/-- C9: the `other_idx` buffer of `qual_matrix_to_geno` has room for 4
entries; the number of bases written into it stays within bounds exactly
when at least one of `ref_idx`, `alt_idx` is a valid index `0..4`, and
when both carry the negative "absent" sentinel all 5 bases are
classified as "other", overflowing the buffer — so the safe use of the
function requires valid (non-negative, at most 4) indices. -/
theorem claim_C9_other_idx_bounds (ref_idx alt_idx : Int) :
    ((other_idx ref_idx alt_idx).length ≤ 4 ↔
      (0 ≤ ref_idx ∧ ref_idx ≤ 4) ∨ (0 ≤ alt_idx ∧ alt_idx ≤ 4)) ∧
    (ref_idx < 0 → alt_idx < 0 → (other_idx ref_idx alt_idx).length = 5) := by
  unfold other_idx
  have h5 : (List.range 5).map (fun i => (i : Int)) = [0, 1, 2, 3, 4] := rfl
  rw [h5]
  simp only [List.filter_cons, List.filter_nil]
  split_ifs <;> simp_all <;> omega

/-- Witness for C9: both indices carry the `-1` sentinel, the buffer
bound is exceeded (`noth = 5`). -/
theorem claim_C9_other_idx_bounds_witness :
    (-1 : Int) < 0 ∧ (other_idx (-1) (-1)).length = 5 :=
  ⟨by decide, (claim_C9_other_idx_bounds (-1) (-1)).2 (by decide) (by decide)⟩

/-- Counterexample to C3 as stated: with floor = 0 ≤ q = 0 ≤ cap = 45,
the clamped quality is 0, the error probability is `p = 0.1^0 = 1`, and
entry 2 of the vector is `log(1/6) < 0 = log 1`, which is entry 3 — so
the vector is not non-increasing for every `floor ≤ q ≤ cap`. -/
theorem claim_C3_qual_vector_counterexample :
    (0 : Real) ≤ 0 ∧ (0 : Real) ≤ 45 ∧
    get_qual_vector 0 45 0 2 < get_qual_vector 0 45 0 3 := by
  refine ⟨le_refl 0, by norm_num, ?_⟩
  have hbq : max (min (45 : Real) 0) 0 / 10 = (0 : Real) := by
    rw [min_eq_right (by norm_num : (0 : Real) ≤ 45)]
    norm_num
  simp only [get_qual_vector, Matrix.cons_val_two, Matrix.tail_cons,
    Matrix.cons_val_three, Matrix.head_cons, Matrix.head_fin_const]
  rw [hbq, Real.rpow_zero]
  rw [show (0.5 : Real) - 1 / 3 * 1 = 1 / 6 by norm_num, Real.log_one]
  exact Real.log_neg (by norm_num) (by norm_num)

/-- C3, amended: the 4-entry vector of `get_qual_vector` is
non-increasing (entry 0 ≥ entry 1 ≥ entry 2 ≥ entry 3) for every quality
`q` with `floor ≤ q ≤ cap`, provided the clamped error probability
`p = 0.1^(bq/10)` is at most `3/8` (equivalently, the clamped quality is
at least `10·log10(8/3) ≈ 4.26`); for smaller qualities the last
inequality fails, as the counterexample shows. -/
theorem claim_C3_qual_vector_monotone (q cap floor : Real)
    (h1 : floor ≤ q) (h2 : q ≤ cap)
    (h3 : (0.1 : Real) ^ (max (min cap q) floor / 10) ≤ 3 / 8) :
    get_qual_vector q cap floor 1 ≤ get_qual_vector q cap floor 0 ∧
    get_qual_vector q cap floor 2 ≤ get_qual_vector q cap floor 1 ∧
    get_qual_vector q cap floor 3 ≤ get_qual_vector q cap floor 2 := by
  have hp0 : (0 : Real) < (0.1 : Real) ^ (max (min cap q) floor / 10) :=
    Real.rpow_pos_of_pos (by norm_num) _
  simp only [get_qual_vector, Matrix.cons_val_zero, Matrix.cons_val_one,
    Matrix.head_cons, Matrix.cons_val_two, Matrix.tail_cons,
    Matrix.cons_val_three, Matrix.head_fin_const]
  refine ⟨Real.log_le_log (by linarith) (by linarith),
    Real.log_le_log (by linarith) (by linarith),
    Real.log_le_log (by linarith) (by linarith)⟩

/-- Witness for C3 (amended): at `q = cap = 10`, `floor = 0`, the
clamped quality is 10 and `p = 0.1 ≤ 3/8`. -/
theorem claim_C3_qual_vector_monotone_witness :
    ((0 : Real) ≤ 10 ∧ (10 : Real) ≤ 10 ∧
      (0.1 : Real) ^ (max (min (10 : Real) 10) 0 / 10) ≤ 3 / 8) ∧
    get_qual_vector 10 10 0 1 ≤ get_qual_vector 10 10 0 0 := by
  have hb : max (min (10 : Real) 10) 0 / 10 = (1 : Real) := by norm_num
  have hp : (0.1 : Real) ^ (max (min (10 : Real) 10) 0 / 10) ≤ 3 / 8 := by
    rw [hb, Real.rpow_one]; norm_num
  exact ⟨⟨by norm_num, by norm_num, hp⟩,
    (claim_C3_qual_vector_monotone 10 10 0 (by norm_num) (by norm_num) hp).1⟩

/-- Claim-side (spec-worded) "other" contribution for C4: the sum over
the other bases (those in `0..4` distinct from ref and alt) of
`qm[i][3]`, plus `log(2/3)` times the sum of their base counts. -/
noncomputable def spec_other_contrib (qm : Int → Fin 4 → Real)
    (bc : Int → Nat) (ref_idx alt_idx : Int) : Real :=
  (∑ i in (Finset.range 5).filter
      (fun i : Nat => (i : Int) ≠ ref_idx ∧ (i : Int) ≠ alt_idx),
        qm (i : Int) 3)
  + Real.log (2 / 3) *
    (∑ i in (Finset.range 5).filter
      (fun i : Nat => (i : Int) ≠ ref_idx ∧ (i : Int) ≠ alt_idx),
        (bc (i : Int) : Real))

/-- Bridge between the spec-side `Finset.range` sums and the source-side
scan list: summing `f` over the naturals `i < 5` whose cast satisfies
`p` equals summing `f` over the filtered cast list. -/
theorem sum_filter_range5 (p : Int → Prop) [DecidablePred p]
    (f : Int → Real) :
    ∑ i in (Finset.range 5).filter (fun i : Nat => p (i : Int)), f (i : Int)
      = ((((List.range 5).map (fun i => (i : Int))).filter
          (fun i => p i)).map f).sum := by
  rw [Finset.sum_filter, Finset.sum_range_succ, Finset.sum_range_succ,
    Finset.sum_range_succ, Finset.sum_range_succ, Finset.sum_range_succ,
    Finset.sum_range_zero]
  have h5 : (List.range 5).map (fun i => (i : Int)) = [0, 1, 2, 3, 4] := rfl
  rw [h5]
  simp only [List.filter_cons, List.filter_nil]
  norm_num
  split_ifs <;> simp <;> ring

/-- The spec-side other contribution coincides with the source-side
accumulation over the `other_idx` scan. -/
theorem spec_other_contrib_eq (qm : Int → Fin 4 → Real) (bc : Int → Nat)
    (ref_idx alt_idx : Int) :
    spec_other_contrib qm bc ref_idx alt_idx
      = ((other_idx ref_idx alt_idx).map (fun i => qm i 3)).sum
        + Real.log (2 / 3) *
          ((other_idx ref_idx alt_idx).map (fun i => (bc i : Real))).sum := by
  unfold spec_other_contrib other_idx
  rw [sum_filter_range5 (fun i => i ≠ ref_idx ∧ i ≠ alt_idx)
        (fun i => qm i 3),
      sum_filter_range5 (fun i => i ≠ ref_idx ∧ i ≠ alt_idx)
        (fun i => (bc i : Real))]

/-- C4: for valid distinct indices, `qual_matrix_to_geno` returns
exactly the spec's formulas: there are three "other" bases, the count is
5 with the doublet flag and 3 without, and each likelihood is the
claimed combination of the other-base contribution, the qual-matrix
entries and the log-scaled base counts. -/
theorem claim_C4_qual_matrix_to_geno (qm : Int → Fin 4 → Real)
    (bc : Int → Nat) (ref_idx alt_idx : Int) (db : Bool)
    (h1 : 0 ≤ ref_idx) (h2 : ref_idx ≤ 4) (h3 : 0 ≤ alt_idx)
    (h4 : alt_idx ≤ 4) (hne : ref_idx ≠ alt_idx) :
    ((Finset.range 5).filter
      (fun i : Nat => (i : Int) ≠ ref_idx ∧ (i : Int) ≠ alt_idx)).card
        = 3 ∧
    (qual_matrix_to_geno qm bc ref_idx alt_idx db).2
      = (if db then 5 else 3) ∧
    (qual_matrix_to_geno qm bc ref_idx alt_idx db).1
      = (if db then
          [spec_other_contrib qm bc ref_idx alt_idx + qm ref_idx 0
             + qm alt_idx 3 + Real.log (1 / 3) * (bc alt_idx : Real),
           spec_other_contrib qm bc ref_idx alt_idx + qm ref_idx 2
             + qm alt_idx 2,
           spec_other_contrib qm bc ref_idx alt_idx + qm ref_idx 3
             + qm alt_idx 0 + Real.log (1 / 3) * (bc ref_idx : Real),
           spec_other_contrib qm bc ref_idx alt_idx + qm ref_idx 1
             + Real.log (1 / 4) * (bc alt_idx : Real),
           spec_other_contrib qm bc ref_idx alt_idx + qm alt_idx 1
             + Real.log (1 / 4) * (bc ref_idx : Real)]
         else
          [spec_other_contrib qm bc ref_idx alt_idx + qm ref_idx 0
             + qm alt_idx 3 + Real.log (1 / 3) * (bc alt_idx : Real),
           spec_other_contrib qm bc ref_idx alt_idx + qm ref_idx 2
             + qm alt_idx 2,
           spec_other_contrib qm bc ref_idx alt_idx + qm ref_idx 3
             + qm alt_idx 0 + Real.log (1 / 3) * (bc ref_idx : Real)]) := by
  refine ⟨?_, ?_, ?_⟩
  · interval_cases ref_idx <;> interval_cases alt_idx <;>
      first
        | exact absurd rfl hne
        | decide
  · cases db <;> rfl
  · simp only [qual_matrix_to_geno, spec_other_contrib_eq]
    cases db <;> rfl

/-- Witness for C4: constant qual matrix and base counts, `ref = 0`,
`alt = 1`, no doublet likelihoods — `*n` is 3. -/
theorem claim_C4_qual_matrix_to_geno_witness :
    ((0 : Int) ≤ 0 ∧ (0 : Int) ≤ 4 ∧ (0 : Int) ≤ 1 ∧ (1 : Int) ≤ 4 ∧
      (0 : Int) ≠ 1) ∧
    (qual_matrix_to_geno (fun _ _ => 0) (fun _ => 0) 0 1 false).2
      = (if false then 5 else 3) :=
  ⟨⟨by decide, by decide, by decide, by decide, by decide⟩,
   (claim_C4_qual_matrix_to_geno (fun _ _ => 0) (fun _ => 0) 0 1 false
      (by decide) (by decide) (by decide) (by decide) (by decide)).2.1⟩

/-- `get_snplist_from_vcf` appends the accepted records in input order
and returns how many it added. -/
theorem get_snplist_spec (recs : List bcf_rec) (pl : List csp_snp) :
    get_snplist_from_vcf recs pl
      = (pl ++ recs.filterMap snp_from_rec,
         (recs.filterMap snp_from_rec).length) := by
  induction recs generalizing pl with
  | nil => simp [get_snplist_from_vcf]
  | cons r rest ih =>
    cases h : snp_from_rec r with
    | none => simp [get_snplist_from_vcf, h, ih, List.filterMap_cons]
    | some s => simp [get_snplist_from_vcf, h, ih, List.filterMap_cons]

/-- C6: the SNP loader appends, in input order, exactly the records
whose chromosome resolves, whose ref/alt strings have length at most 1
and whose allele count is at most 2; rejected records are skipped (the
loop continues) and the returned count equals the number of records
actually added; absent ref/alt is stored as the sentinel (`none`,
modelling the C value 0). -/
theorem claim_C6_snplist (recs : List bcf_rec) (pl : List csp_snp) :
    (get_snplist_from_vcf recs pl).1
        = pl ++ recs.filterMap snp_from_rec ∧
    (get_snplist_from_vcf recs pl).2
        = (recs.filterMap snp_from_rec).length ∧
    (∀ r ∈ recs, (snp_from_rec r).isSome ↔
      (r.chr.isSome ∧ (∀ a ∈ r.alleles, a.length ≤ 1) ∧
        r.alleles.length ≤ 2)) ∧
    (∀ r s, snp_from_rec r = some s →
      r.chr = some s.chr ∧ s.pos = r.pos ∧
      s.ref = (r.alleles.getD 0 "").toList.head? ∧
      s.alt = (r.alleles.getD 1 "").toList.head?) := by
  refine ⟨by rw [get_snplist_spec], by rw [get_snplist_spec], ?_, ?_⟩
  · rintro ⟨chr, pos, alleles⟩ _
    cases chr with
    | none => simp [snp_from_rec]
    | some c =>
      rcases alleles with _ | ⟨a0, _ | ⟨a1, rest⟩⟩
      · simp [snp_from_rec]
      · simp only [snp_from_rec]
        split_ifs <;> simp_all
      · cases rest with
        | nil =>
          simp only [snp_from_rec]
          split_ifs <;> simp_all
        | cons a2 rest2 =>
          simp only [snp_from_rec]
          split_ifs <;> simp_all
  · rintro ⟨chr, pos, alleles⟩ s h
    cases chr with
    | none => simp [snp_from_rec] at h
    | some c =>
      rcases alleles with _ | ⟨a0, _ | ⟨a1, rest⟩⟩
      · simp only [snp_from_rec] at h
        split_ifs at h <;>
          (simp only [Option.some.injEq] at h; subst h; simp_all)
      · simp only [snp_from_rec] at h
        split_ifs at h <;>
          (simp only [Option.some.injEq] at h; subst h; simp_all)
      · cases rest with
        | nil =>
          simp only [snp_from_rec] at h
          split_ifs at h <;>
          (simp only [Option.some.injEq] at h; subst h; simp_all)
        | cons a2 rest2 =>
          simp only [snp_from_rec] at h
          split_ifs at h <;>
          (simp only [Option.some.injEq] at h; subst h; simp_all)

/-- Witness for C6: a record with a length-2 alt string among the input
is rejected — its acceptance predicate is false. -/
theorem claim_C6_snplist_witness :
    ((⟨some "chr1", 101, ["A", "CG"]⟩ : bcf_rec) ∈
      ([⟨some "chr1", 100, ["A", "C"]⟩,
        ⟨some "chr1", 101, ["A", "CG"]⟩] : List bcf_rec)) ∧
    ((snp_from_rec (⟨some "chr1", 101, ["A", "CG"]⟩ : bcf_rec)).isSome ↔
      ((⟨some "chr1", 101, ["A", "CG"]⟩ : bcf_rec).chr.isSome ∧
        (∀ a ∈ (⟨some "chr1", 101, ["A", "CG"]⟩ : bcf_rec).alleles,
          a.length ≤ 1) ∧
        (⟨some "chr1", 101, ["A", "CG"]⟩ : bcf_rec).alleles.length ≤ 2)) :=
  ⟨by decide,
   (claim_C6_snplist
      [⟨some "chr1", 100, ["A", "C"]⟩, ⟨some "chr1", 101, ["A", "CG"]⟩]
      []).2.2.1 _ (by decide)⟩

/-- The arg-max used for the genotype call: on a 3-element list it
returns an index below 3 holding a maximal value, and every earlier
index holds a strictly smaller value (ties resolved toward the lowest
index). -/
theorem idx_of_max3 (a b c : Real) :
    get_idx_of_max [a, b, c] < 3 ∧
    (∀ x ∈ [a, b, c], x ≤ [a, b, c].getD (get_idx_of_max [a, b, c]) 0) ∧
    (∀ j, j < get_idx_of_max [a, b, c] →
      [a, b, c].getD j 0 < [a, b, c].getD (get_idx_of_max [a, b, c]) 0) := by
  simp only [get_idx_of_max, idxOfMaxGo]
  split_ifs with h1 h2 h3 <;>
    refine ⟨by norm_num, ?_, ?_⟩ <;>
      first
        | (intro x hx
           rcases List.mem_cons.mp hx with rfl | hx
           · simp [List.getD] <;> linarith
           · rcases List.mem_cons.mp hx with rfl | hx
             · simp [List.getD] <;> linarith
             · rcases List.mem_cons.mp hx with rfl | hx
               · simp [List.getD] <;> linarith
               · simp at hx)
        | (intro j hj
           interval_cases j <;> simp [List.getD] <;> linarith)

/-- C5: the per-sample VCF formatter emits exactly the fixed missing
marker when `tc = 0`, whatever every other field holds (and since it
reads only this sample's state, independently of any other sample);
otherwise it emits the `GT:AD:DP:OTH:PL:AD_all` layout where the
genotype index is an arg-max over the first 3 log-likelihoods with ties
resolved toward the lowest class index, the PL entries are
`round(-10·L/ln 10)` and `AD_all` the comma-joined 5-base counts. -/
theorem claim_C5_str_vcf (p : csp_plp) :
    (p.tc = 0 → csp_plp_str_vcf p = ".:.:.:.:.:.") ∧
    (p.tc ≠ 0 →
      (get_idx_of_max [p.gl 0, p.gl 1, p.gl 2] < 3 ∧
       (∀ x ∈ [p.gl 0, p.gl 1, p.gl 2],
         x ≤ [p.gl 0, p.gl 1, p.gl 2].getD
           (get_idx_of_max [p.gl 0, p.gl 1, p.gl 2]) 0) ∧
       (∀ j, j < get_idx_of_max [p.gl 0, p.gl 1, p.gl 2] →
         [p.gl 0, p.gl 1, p.gl 2].getD j 0 <
           [p.gl 0, p.gl 1, p.gl 2].getD
             (get_idx_of_max [p.gl 0, p.gl 1, p.gl 2]) 0)) ∧
      csp_plp_str_vcf p =
        ["0/0", "1/0", "1/1"].getD
            (get_idx_of_max [p.gl 0, p.gl 1, p.gl 2]) ""
          ++ ":" ++ toString p.ad ++ ":" ++ toString p.dp ++ ":"
          ++ toString p.oth ++ ":"
          ++ joinComma ((((List.finRange 5).take p.ngl).map
              (fun i => round (p.gl i * (-10 / Real.log 10)))).map
                (fun z => toString z)) ++ ":"
          ++ joinComma (((List.finRange 5).map (fun i => p.bc i)).map
              (fun n => toString n))) := by
  constructor
  · intro h
    simp [csp_plp_str_vcf, h]
  · intro h
    exact ⟨idx_of_max3 (p.gl 0) (p.gl 1) (p.gl 2), by
      simp only [csp_plp_str_vcf, if_neg h]⟩

/-- Test fixture for C5: a sample with no reads at the site but
non-trivial leftovers in every other field. -/
noncomputable def plpC5 : csp_plp :=
  { bc := fun _ => 7, tc := 0, ad := 3, dp := 4, oth := 2
    qu := fun _ => [30], qmat := fun _ _ => 1, gl := fun _ => 5
    ngl := 5, hug := none }

/-- Witness for C5: the zero-count sample renders as the fixed missing
marker. -/
theorem claim_C5_str_vcf_witness :
    plpC5.tc = 0 ∧ csp_plp_str_vcf plpC5 = ".:.:.:.:.:." :=
  ⟨rfl, (claim_C5_str_vcf plpC5).1 rfl⟩

theorem sg_find_isSome (l : List (String × Option csp_plp)) (x : String) :
    ((l.find? (fun kv => kv.1 == x)).isSome = true) ↔ x ∈ l.map Prod.fst := by
  induction l with
  | nil => simp
  | cons kv t ih =>
    by_cases hk : kv.1 = x
    · simp [List.find?_cons, beq_iff_eq, hk]
    · simp [List.find?_cons, beq_iff_eq, hk, ih]
      intro h
      exact absurd h.symm hk

theorem sgPutLoop_some (s : List String) :
    ∀ h h' : List (String × Option csp_plp), sgPutLoop h s = some h' →
      s.Nodup ∧ (∀ x ∈ s, x ∉ h.map Prod.fst) ∧
      h' = h ++ s.map (fun x => (x, (none : Option csp_plp))) := by
  induction s with
  | nil =>
    intro h h' he
    simp only [sgPutLoop] at he
    obtain rfl : h = h' := by simpa using he
    simp
  | cons x xs ih =>
    intro h h' he
    simp only [sgPutLoop, sgPut] at he
    by_cases hx : (h.find? (fun kv => kv.1 == x)).isSome = true
    · simp [hx] at he
    · rw [if_neg hx] at he
      obtain ⟨hnd, hdisj, heq⟩ := ih (h ++ [(x, none)]) h' he
      have hxk : x ∉ h.map Prod.fst := fun hmem => hx ((sg_find_isSome h x).mpr hmem)
      refine ⟨?_, ?_, ?_⟩
      · have hxxs : x ∉ xs := fun hmem => (hdisj x hmem) (by simp)
        exact List.nodup_cons.mpr ⟨hxxs, hnd⟩
      · intro y hy
        rcases List.mem_cons.mp hy with rfl | hmem
        · exact hxk
        · intro hyk
          exact (hdisj y hmem) (by simp [hyk])
      · rw [heq]
        simp

theorem sgPutLoop_ok (s : List String) :
    ∀ h : List (String × Option csp_plp), s.Nodup →
      (∀ x ∈ s, x ∉ h.map Prod.fst) →
      sgPutLoop h s
        = some (h ++ s.map (fun x => (x, (none : Option csp_plp)))) := by
  induction s with
  | nil => intro h _ _; simp [sgPutLoop]
  | cons x xs ih =>
    intro h hnd hdisj
    have hx : ¬ ((h.find? (fun kv => kv.1 == x)).isSome = true) := fun hmem =>
      (hdisj x (by simp)) ((sg_find_isSome h x).mp hmem)
    have hdisj' : ∀ y ∈ xs, y ∉ (h ++ [(x, none)]).map Prod.fst := by
      intro y hy
      simp only [List.map_append, List.mem_append, List.map_cons,
        List.map_nil, List.mem_singleton, not_or]
      refine ⟨hdisj y (List.mem_cons_of_mem x hy), ?_⟩
      rintro rfl
      exact (List.nodup_cons.mp hnd).1 hy
    simp only [sgPutLoop, sgPut]
    rw [if_neg hx]
    show sgPutLoop (h ++ [(x, none)]) xs = _
    rw [ih (h ++ [(x, none)]) (List.nodup_cons.mp hnd).2 hdisj']
    simp

theorem sgPutLoop_none_of_mem (s : List String)
    (h : List (String × Option csp_plp)) (x : String)
    (hxs : x ∈ s) (hk : x ∈ h.map Prod.fst) : sgPutLoop h s = none := by
  cases he : sgPutLoop h s with
  | none => rfl
  | some h' => exact absurd hk (((sgPutLoop_some s h h' he).2.1) x hxs)

/-- Counterexample to C2 as stated: a second `csp_mplp_set_sg` call on
the same aggregator with an entirely fresh name succeeds (khash `kh_put`
only reports a collision for an existing key), so "fails whenever it is
called a second time" is false. -/
theorem claim_C2_set_sg_counterexample :
    ((csp_mplp_set_sg csp_mplp_init ["A"]).bind
      (fun q => csp_mplp_set_sg q ["B"])).isSome = true := rfl

/-- C2, amended: `csp_mplp_set_sg` establishes the fixed
sample-group-to-index mapping and succeeds on every duplicate-free
non-empty name list on a freshly initialized aggregator; it fails
whenever the name list contains duplicates; and a second call fails
whenever its name list shares any name with a successfully registered
one (in particular, a repeated call with the same list) — a second call
with entirely fresh names, however, succeeds. -/
theorem claim_C2_set_sg :
    (∀ s : List String, s ≠ [] → s.Nodup →
      ∃ q, csp_mplp_set_sg csp_mplp_init s = some q ∧
        q.nsg = s.length ∧ q.hsg_iter = s ∧
        q.hsg = some (s.map (fun x => (x, (none : Option csp_plp)))) ∧
        ∀ i (hi : i < s.length),
          q.hsg_iter.get? i = some (s.get ⟨i, hi⟩) ∧
          (((s.map (fun x => (x, (none : Option csp_plp)))).find?
            (fun kv => kv.1 == s.get ⟨i, hi⟩)).isSome = true)) ∧
    (∀ (p : csp_mplp) (s : List String), ¬ s.Nodup →
      csp_mplp_set_sg p s = none) ∧
    (∀ (p q : csp_mplp) (s s' : List String) (x : String),
      csp_mplp_set_sg p s = some q → x ∈ s → x ∈ s' →
      csp_mplp_set_sg q s' = none) := by
  refine ⟨?_, ?_, ?_⟩
  · intro s hne hnd
    have h0 : ¬ s.length = 0 := by simpa using hne
    have hput := sgPutLoop_ok s [] hnd (by simp)
    have hall : (s.all fun x =>
        (((s.map (fun x => (x, (none : Option csp_plp)))).find?
          (fun kv => kv.1 == x)).isSome)) = true := by
      rw [List.all_eq_true]
      intro x hx
      exact (sg_find_isSome _ x).mpr (by simpa using hx)
    have hset : csp_mplp_set_sg csp_mplp_init s
        = some { csp_mplp_init with
                 hsg := some (s.map (fun x => (x, (none : Option csp_plp))))
                 hsg_iter := s ++ (csp_mplp_init.hsg_iter).drop s.length
                 nsg := s.length } := by
      simp only [csp_mplp_set_sg]
      rw [if_neg h0]
      have hinit : (csp_mplp_init.hsg).getD [] = [] := rfl
      rw [hinit, hput]
      simp only [List.nil_append]
      rw [if_pos hall]
    refine ⟨_, hset, rfl, by simp [csp_mplp_init], by simp, ?_⟩
    intro i hi
    constructor
    · have hiter : (s ++ (csp_mplp_init.hsg_iter).drop s.length).get? i
          = s.get? i := by
        simp [csp_mplp_init]
      rw [hiter, List.get?_eq_get hi]
    · exact (sg_find_isSome _ _).mpr (by simp [List.get_mem])
  · intro p s hnd
    have h0 : ¬ s.length = 0 := by
      intro h
      rw [List.length_eq_zero] at h
      subst h
      exact hnd List.nodup_nil
    simp only [csp_mplp_set_sg]
    rw [if_neg h0]
    cases he : sgPutLoop (p.hsg.getD []) s with
    | none => rfl
    | some h' => exact absurd ((sgPutLoop_some s _ h' he).1) hnd
  · intro p q s s' x hpq hxs hxs'
    have h0 : ¬ s.length = 0 := by
      intro h
      rw [List.length_eq_zero] at h
      subst h
      simp at hxs
    simp only [csp_mplp_set_sg] at hpq
    rw [if_neg h0] at hpq
    cases he : sgPutLoop (p.hsg.getD []) s with
    | none => rw [he] at hpq; simp at hpq
    | some h' =>
      rw [he] at hpq
      have hxk : x ∈ h'.map Prod.fst := by
        obtain ⟨_, _, heq⟩ := sgPutLoop_some s _ h' he
        rw [heq]
        simp [hxs]
      have hq : q.hsg = some h' := by
        dsimp only at hpq
        split_ifs at hpq with hc
        obtain rfl : _ = q := by simpa using hpq
        rfl
      have h0' : ¬ s'.length = 0 := by
        intro h
        rw [List.length_eq_zero] at h
        subst h
        simp at hxs'
      simp only [csp_mplp_set_sg]
      rw [if_neg h0']
      have hloop : sgPutLoop (q.hsg.getD []) s' = none := by
        rw [hq]
        exact sgPutLoop_none_of_mem s' h' x hxs' hxk
      rw [hloop]

/-- Test fixture for C2's witness: the aggregator produced by a first
successful `csp_mplp_set_sg` call with the single name `"A"`. -/
def mplpC2 : csp_mplp :=
  { csp_mplp_init with
    hsg := some [("A", none)], hsg_iter := ["A"], nsg := 1 }

/-- Witness for C2 (amended): registering `["A", "A"]` (duplicates)
fails, and a second call sharing the already-registered name `"A"`
fails. -/
theorem claim_C2_set_sg_witness :
    csp_mplp_set_sg csp_mplp_init ["A", "A"] = none ∧
    csp_mplp_set_sg mplpC2 ["A", "C"] = none :=
  ⟨claim_C2_set_sg.2.1 csp_mplp_init ["A", "A"] (by decide),
   claim_C2_set_sg.2.2 csp_mplp_init mplpC2 ["A"] ["A", "C"] "A" rfl
     (by decide) (by decide)⟩

end CellsnpLite
